import Mathlib

/-!
# Verification of the LedFx registry / schema-composition / loader core

Shallow embedding of `ledfxcontroller/utils.py`: the reflection helpers
(`hasattr_explicit`, `getattr_explicit`), the `BaseRegistry` class
(automatic subclass registration, `no_registration`, `schema`) and the
`RegistryLoader` (`create`, `destroy`, auto-increment ids), together with
a model of the voluptuous validator interface they use.

Python mappings (`dict`) are embedded as association lists with
dict-update semantics; Python class objects as `PyClass` records carrying
the attribute bound in their own `__dict__`; attribute lookup walks the
method-resolution order (a `List PyClass`, most-derived first).
-/

set_option autoImplicit false

/-- A configuration value in a component config mapping (model of the
Python values flowing through the voluptuous validator). -/
inductive Val where
  | vint (n : Int)
  | vstr (s : String)
deriving DecidableEq, Repr

/-- Declaration of one schema field: the expected type tag, whether the
key is required, and an optional default applied when the key is absent
(model of a voluptuous key marker such as `vol.Required`/`vol.Optional`
with a `default=`). -/
structure FieldSpec where
  ftype : String
  required : Bool
  default : Option Val
deriving DecidableEq, Repr

/-- The dict underlying a voluptuous `Schema`: field name to field spec.
Embedded as an association list with dict semantics. -/
abbrev VSchema := List (String × FieldSpec)

/-- A configuration mapping passed to `create` / produced by validation. -/
abbrev Config := List (String × Val)

/-- First value stored under key `k` (Python `d[k]` / `d.get(k)` lookup). -/
def dictFind {κ α : Type} [DecidableEq κ] (d : List (κ × α)) (k : κ) : Option α :=
  match d with
  | [] => none
  | kv :: rest => if kv.1 = k then some kv.2 else dictFind rest k

/-- Python `k in d`. -/
def dictMem {κ α : Type} [DecidableEq κ] (d : List (κ × α)) (k : κ) : Bool :=
  (dictFind d k).isSome

/-- Python `d[k] = v`: overwrite in place when the key exists, otherwise
append the new entry. -/
def dictInsert {κ α : Type} [DecidableEq κ] (d : List (κ × α)) (k : κ) (v : α) :
    List (κ × α) :=
  if dictMem d k then d.map (fun kv => if kv.1 = k then (k, v) else kv)
  else d ++ [(k, v)]

/-- Python `del d[k]` after a successful membership test: drop the entry. -/
def dictRemove {κ α : Type} [DecidableEq κ] (d : List (κ × α)) (k : κ) :
    List (κ × α) :=
  d.filter (fun kv => ¬ kv.1 = k)

/-- The keys of a mapping, in order. -/
def dictKeys {κ α : Type} (d : List (κ × α)) : List κ :=
  d.map (fun kv => kv.1)

/-- Embeds `vol.Schema.extend`: dict-update semantics — every key of `ext`
overrides a same-named key of `base`, keys of `base` not named in `ext`
persist unchanged, new keys of `ext` are appended. -/
def extendSchema (base ext : VSchema) : VSchema :=
  base.map (fun kv =>
    match dictFind ext kv.1 with
    | some v => (kv.1, v)
    | none => kv)
  ++ ext.filter (fun kv => dictFind base kv.1 = none)

/-- A Python class object as the registry core sees it: an identity (so
that distinct class objects with equal attributes stay distinguishable),
its `__module__`, and the value bound to the schema attribute
(`CONFIG_SCHEMA`) in this class's own `__dict__`, if any. -/
structure PyClass where
  cid : Nat
  module : String
  declaredSchema : Option VSchema
deriving DecidableEq, Repr

/-- An MRO chain: the class itself first, then its bases in
method-resolution order (the result of `inspect.getmro`). -/
abbrev Mro := List PyClass

/-- Python attribute lookup for the schema attribute along an MRO:
`getattr(cls, attr)` returns the value from the first class in the MRO
whose own `__dict__` binds it; `none` models `AttributeError`. -/
def getattrSchema : Mro → Option VSchema
  | [] => none
  | c :: rest =>
    match c.declaredSchema with
    | some s => some s
    | none => getattrSchema rest

/-- Embeds `hasattr_explicit(cls, attr)`: whether `getattr(cls, attr)` differs
from `getattr(super(cls, cls), attr, None)`; an `AttributeError` from the
first lookup yields `False`.  Voluptuous `Schema` equality compares the
underlying dicts, embedded here as `VSchema` equality. -/
def hasattr_explicit (mro : Mro) : Bool :=
  match mro with
  | [] => false
  | _ :: parentMro =>
    match getattrSchema mro with
    | none => false
    | some v => decide (some v ≠ getattrSchema parentMro)

/-- Embeds `getattr_explicit(cls, attr, *default)` at the two call sites of the
source, where at most one default is supplied: return the attribute when
it is explicitly declared, else the default; a `none` result with
`default = none` models the raised `AttributeError`, and `default` itself
may carry the caller's fallback (`None` in the composition loop is fused
with the `AttributeError` outcome, which the loop treats identically). -/
def getattr_explicit (mro : Mro) (default : Option VSchema) : Option VSchema :=
  if hasattr_explicit mro then getattrSchema mro
  else default

/-- The list of MRO suffixes of a chain, most-derived first: element `i`
is the MRO of the `i`-th class of the chain, which is what
`getattr_explicit(c, ...)` consults for each `c` in the loop of
`BaseRegistry.schema`. -/
def mroTails : Mro → List Mro
  | [] => []
  | c :: rest => (c :: rest) :: mroTails rest

/-- The MRO of `type(self)` when `self` is a `BaseRegistry` subclass:
the metaclass chain `ABCMeta, type, object`, none of which binds
`CONFIG_SCHEMA`. -/
def abcMetaMro : Mro :=
  [⟨1000, "abc", none⟩, ⟨1001, "builtins", none⟩, ⟨1002, "builtins", none⟩]

/-- Embeds `BaseRegistry.schema(self, extended=True, extra=ALLOW_EXTRA)` (the
`extra` policy is carried by the validator and does not affect the field
set, so it is not part of this embedding's result).

With `extended=False` the source evaluates
`getattr_explicit(type(self), self._schema_attr, vol.Schema({}))`; since
`schema` is a classmethod, `self` is the class itself and `type(self)` is
the metaclass `ABCMeta`, so the lookup runs on `abcMetaMro`.

With `extended=True` it folds over `inspect.getmro(self)[::-1]`
(root-to-leaf), extending the running schema with every explicitly
declared fragment. -/
def BaseRegistry.schema (mro : Mro) (extended : Bool) : VSchema :=
  if extended = false then
    match getattr_explicit abcMetaMro (some []) with
    | some s => s
    | none => []
  else
    (mroTails mro).reverse.foldl
      (fun acc m =>
        match getattr_explicit m none with
        | some s => extendSchema acc s
        | none => acc)
      []

/-- The schema fragments that `BaseRegistry.schema` treats as explicitly
declared, in most-derived-first order: one per class of the chain whose
own binding of the schema attribute differs from the value visible on
its parent. -/
def explicitFragments (mro : Mro) : List VSchema :=
  (mroTails mro).filterMap (fun m => getattr_explicit m none)

/-- Described composed-schema lookup, following the spec's words: the
value of a field is the one given by the most-derived explicitly declared
fragment that names it, and a field named by no explicit fragment is
absent. -/
def specComposedFind (mro : Mro) (f : String) : Option FieldSpec :=
  (explicitFragments mro).findSome? (fun s => dictFind s f)

/-- The `__module__` of a class: the module of the head of its MRO. -/
def clsModule (mro : Mro) : String :=
  match mro with
  | [] => ""
  | c :: _ => c.module

/-- The identity of a class: the `cid` of the head of its MRO. -/
def clsCid (mro : Mro) : Nat :=
  match mro with
  | [] => 0
  | c :: _ => c.cid

/-- Last '.'-separated segment of a module path, accumulator style. -/
def lastSegmentAux : List Char → List Char → List Char
  | acc, [] => acc.reverse
  | _, '.' :: rest => lastSegmentAux [] rest
  | acc, c :: rest => lastSegmentAux (c :: acc) rest

/-- The registration name of a class:
`cls.__module__.split('.')[-1]`, the last segment of the fully qualified
module identifier. -/
def registrationName (module : String) : String :=
  ⟨lastSegmentAux [] module.toList⟩

/-- A category registry: the `_registry` dict mapping registration name to
the registered class (carried with its MRO, which `schema` needs). -/
abbrev Registry := List (String × Mro)

/-- Embeds `BaseRegistry.__init_subclass__`, fired at every subclass definition.
`registry = none` models the state where no class of the hierarchy has an
`_registry` attribute yet (`not hasattr(cls, '_registry')`), in which case
a fresh empty dict is created; the resulting dict is the one threaded to
later definitions in the hierarchy (attribute inheritance).  The class is
then stored under its registration name, silently overwriting any previous
entry; no failure path exists. -/
def BaseRegistry.init_subclass (registry : Option Registry) (cls : Mro) : Registry :=
  let reg := match registry with
    | none => []
    | some r => r
  dictInsert reg (registrationName (clsModule cls)) cls

/-- Embeds `BaseRegistry.no_registration`: `del cls._registry[name]`; `.error`
models the `KeyError` raised when the computed name has no entry. -/
def BaseRegistry.no_registration (reg : Registry) (cls : Mro) : Except String Registry :=
  let name := registrationName (clsModule cls)
  if dictMem reg name then .ok (dictRemove reg name)
  else .error name

/-- Model validator's type check of one value against a
field's declared type tag. -/
def typeOk (t : String) (v : Val) : Bool :=
  match v with
  | .vint _ => t = "int"
  | .vstr _ => t = "str"

/-- Model of applying a voluptuous validator (`schema(config)`) with the
`ALLOW_EXTRA` policy, per the validator contract the source relies on:
every field present in the config must satisfy its declared type (unknown
extra fields pass through); a required field that is absent and has no
default is an error; all offending field names are collected, not just the
first.  On success the normalized mapping is the input config followed by
the defaults of the absent defaulted fields. -/
def validateConfig (s : VSchema) (c : Config) : Except (List String) Config :=
  let typeErrs := c.filterMap (fun kv =>
    match dictFind s kv.1 with
    | some fs => if typeOk fs.ftype kv.2 then none else some kv.1
    | none => none)
  let missingErrs := s.filterMap (fun kf =>
    if kf.2.required = true ∧ kf.2.default = none ∧ dictFind c kf.1 = none
    then some kf.1 else none)
  if typeErrs ++ missingErrs = [] then
    .ok (c ++ s.filterMap (fun kf =>
      if dictFind c kf.1 = none then kf.2.default.map (fun v => (kf.1, v))
      else none))
  else .error (typeErrs ++ missingErrs)

/-- A constructed component instance, recording exactly what the
constructor call received: the class used, the config argument (absent
when construction ran as `_cls(*args)`), and the extra positional
arguments. -/
structure Obj where
  cid : Nat
  config : Option Config
  args : List Val
deriving DecidableEq, Repr

/-- Mutable state of `RegistryLoader`: `_objects` (id to instance) and
`_object_id` (the next auto-increment id). -/
structure LoaderState where
  objects : List (Nat × Obj)
  nextObjectId : Nat
deriving DecidableEq, Repr

/-- Loader state right after `RegistryLoader.__init__`: no objects,
`_object_id = 1`. -/
def RegistryLoader.init : LoaderState :=
  { objects := [], nextObjectId := 1 }

/-- The failure modes of `RegistryLoader.create` / `destroy`; the source
raises `AttributeError` with a distinct message at each site (the spec's
NotFoundError / ConflictError taxonomy) and lets the validator's
ValidationError propagate. -/
inductive LoaderError where
  | notFound (name : String)
  | conflict (id : Nat)
  | validation (fields : List String)
  | notFoundId (id : Nat)
deriving DecidableEq, Repr

/-- Returns `true` iff the call raised. -/
def exceptIsError {ε α : Type} : Except ε α → Bool
  | .error _ => true
  | .ok _ => false

/-- Embeds `RegistryLoader.create(name, config={}, id=None, *args)`.

Returned pair: the loader state *after* the call (also when it raises —
the source mutates `self._object_id` in place before the conflict check
and before validation, and that mutation survives a raise) and the
outcome.  Order of the source: name lookup, auto-id assignment and
counter increment when `id is None`, conflict check, then — unless
`config is None` — validation against the class's extended schema; the
constructor receives the normalized config (or nothing) plus the extra
args; the instance is stored under the resolved id. -/
def RegistryLoader.create (reg : Registry) (st : LoaderState) (name : String)
    (config : Option Config) (id : Option Nat) (args : List Val) :
    LoaderState × Except LoaderError Obj :=
  match dictFind reg name with
  | none => (st, .error (.notFound name))
  | some cls =>
    let rid := match id with
      | none => st.nextObjectId
      | some i => i
    let st1 : LoaderState :=
      { objects := st.objects
        nextObjectId := match id with
          | none => st.nextObjectId + 1
          | some _ => st.nextObjectId }
    if dictMem st1.objects rid then
      (st1, .error (.conflict rid))
    else
      match config with
      | some c =>
        match validateConfig (BaseRegistry.schema cls true) c with
        | .error errs => (st1, .error (.validation errs))
        | .ok nc =>
          let obj : Obj := ⟨clsCid cls, some nc, args⟩
          ({ st1 with objects := dictInsert st1.objects rid obj }, .ok obj)
      | none =>
        let obj : Obj := ⟨clsCid cls, none, args⟩
        ({ st1 with objects := dictInsert st1.objects rid obj }, .ok obj)

/-- Embeds `RegistryLoader.destroy(id)`: raises when no live instance holds the
id, otherwise deletes that entry; the auto-id counter is never touched. -/
def RegistryLoader.destroy (st : LoaderState) (id : Nat) :
    LoaderState × Except LoaderError Unit :=
  if dictMem st.objects id then
    ({ st with objects := dictRemove st.objects id }, .ok ())
  else
    (st, .error (.notFoundId id))

/-- One loader API call, for reasoning about call sequences. -/
inductive LoaderOp where
  | create (name : String) (config : Option Config) (id : Option Nat) (args : List Val)
  | destroy (id : Nat)

/-- The state after one call (errors included, since failed calls can
leave the counter advanced). -/
def loaderStep (reg : Registry) (st : LoaderState) : LoaderOp → LoaderState
  | .create name config id args => (RegistryLoader.create reg st name config id args).1
  | .destroy i => (RegistryLoader.destroy st i).1

/-- The auto id a call assigns, when it executes
`id = self._object_id; self._object_id += 1`: a create with omitted id
whose name lookup succeeded. -/
def autoAssignedId (reg : Registry) (st : LoaderState) : LoaderOp → Option Nat
  | .create name _ none _ =>
    match dictFind reg name with
    | some _ => some st.nextObjectId
    | none => none
  | _ => none

/-- Run a sequence of loader calls, collecting every auto-assigned id in
order. -/
def runTrace (reg : Registry) (st : LoaderState) : List LoaderOp → LoaderState × List Nat
  | [] => (st, [])
  | op :: ops =>
    let assigned := (autoAssignedId reg st op).toList
    let rest := runTrace reg (loaderStep reg st op) ops
    (rest.1, assigned ++ rest.2)

/-- Demo base class of a category (declares a common field `a`). -/
def demoBaseCls : PyClass :=
  ⟨10, "ledfxcontroller.effects", some [("a", ⟨"int", false, some (.vint 1)⟩)]⟩

/-- Demo leaf class in module `ledfxcontroller.effects.x`, declaring its
own field `brightness`. -/
def demoLeafCls : PyClass :=
  ⟨11, "ledfxcontroller.effects.x", some [("brightness", ⟨"int", false, none⟩)]⟩

/-- MRO of the demo leaf class. -/
def demoMro : Mro := [demoLeafCls, demoBaseCls]

/-- A registry holding the demo class under its registration name `x`. -/
def demoReg : Registry := [("x", demoMro)]

/-! ## Association-list and option lemmas -/

/-- First of two options that is `some`. -/
def firstSome {α : Type} (x y : Option α) : Option α :=
  match x with
  | some v => some v
  | none => y

theorem firstSome_none_right {α : Type} (x : Option α) : firstSome x none = x := by
  cases x <;> rfl

theorem firstSome_assoc {α : Type} (x y z : Option α) :
    firstSome (firstSome x y) z = firstSome x (firstSome y z) := by
  cases x <;> rfl

theorem dictFind_append {κ α : Type} [DecidableEq κ] (l1 l2 : List (κ × α)) (k : κ) :
    dictFind (l1 ++ l2) k = firstSome (dictFind l1 k) (dictFind l2 k) := by
  induction l1 with
  | nil => rfl
  | cons kv rest ih =>
    by_cases h : kv.1 = k
    · simp [dictFind, h, firstSome]
    · simp [dictFind, h, ih]

theorem findSome_append {α β : Type} (l1 l2 : List α) (g : α → Option β) :
    (l1 ++ l2).findSome? g = firstSome (l1.findSome? g) (l2.findSome? g) := by
  induction l1 with
  | nil => simp [firstSome]
  | cons x rest ih =>
    cases hx : g x <;> simp [List.findSome?_cons, hx, ih, firstSome]

theorem dictFind_extendMap (a b : VSchema) (f : String) :
    dictFind (a.map (fun kv =>
      match dictFind b kv.1 with
      | some v => (kv.1, v)
      | none => kv)) f
    = match dictFind a f with
      | some w => some ((dictFind b f).getD w)
      | none => none := by
  induction a with
  | nil => rfl
  | cons kv rest ih =>
    by_cases h : kv.1 = f
    · subst h
      cases hb : dictFind b kv.1 <;> simp [dictFind, hb]
    · cases hb : dictFind b kv.1 <;> simp [dictFind, h, hb, ih]

theorem dictFind_filterNotin (a b : VSchema) (f : String) :
    dictFind (b.filter (fun kv => dictFind a kv.1 = none)) f
    = if dictFind a f = none then dictFind b f else none := by
  induction b with
  | nil => simp [dictFind]
  | cons kv rest ih =>
    by_cases hk : kv.1 = f
    · subst hk
      by_cases ha : dictFind a kv.1 = none <;>
        simp [List.filter, dictFind, ha, ih]
    · by_cases ha : dictFind a kv.1 = none <;>
        simp [List.filter, dictFind, ha, hk, ih]

theorem dictFind_extendSchema (a b : VSchema) (f : String) :
    dictFind (extendSchema a b) f = firstSome (dictFind b f) (dictFind a f) := by
  unfold extendSchema
  rw [dictFind_append, dictFind_extendMap, dictFind_filterNotin]
  cases ha : dictFind a f <;> cases hb : dictFind b f <;> simp [firstSome, ha, hb]

theorem dictFind_foldl_extendSchema (fs : List VSchema) (acc : VSchema) (f : String) :
    dictFind (fs.foldl extendSchema acc) f
    = firstSome (fs.reverse.findSome? (fun s => dictFind s f)) (dictFind acc f) := by
  induction fs generalizing acc with
  | nil => simp [firstSome]
  | cons s rest ih =>
    rw [List.foldl_cons, ih, dictFind_extendSchema, List.reverse_cons, findSome_append]
    have h1 : List.findSome? (fun s => dictFind s f) [s] = dictFind s f := by
      cases hs : dictFind s f <;> simp [List.findSome?_cons, hs]
    rw [h1, firstSome_assoc]

theorem schemaFold_filterMap (l : List Mro) (acc : VSchema) :
    l.foldl (fun acc m =>
      match getattr_explicit m none with
      | some s => extendSchema acc s
      | none => acc) acc
    = (l.filterMap (fun m => getattr_explicit m none)).foldl extendSchema acc := by
  induction l generalizing acc with
  | nil => rfl
  | cons m rest ih =>
    cases hm : getattr_explicit m none <;> simp [List.filterMap_cons, hm, ih]

theorem dictFind_updateList {κ α : Type} [DecidableEq κ] (d : List (κ × α)) (k j : κ) (v : α) :
    dictFind (d.map (fun kv => if kv.1 = k then (k, v) else kv)) j
    = if j = k then (if dictMem d k then some v else none) else dictFind d j := by
  induction d with
  | nil => simp [dictFind, dictMem]
  | cons kv rest ih =>
    by_cases hk : kv.1 = k <;> by_cases hj : j = k <;> by_cases hkj : kv.1 = j <;>
      simp_all [dictFind, dictMem]

theorem dictMem_iff_mem_dictKeys {κ α : Type} [DecidableEq κ] (d : List (κ × α)) (k : κ) :
    dictMem d k = true ↔ k ∈ dictKeys d := by
  induction d with
  | nil => simp [dictMem, dictFind, dictKeys]
  | cons kv rest ih =>
    by_cases h : kv.1 = k
    · subst h
      simp [dictMem, dictFind, dictKeys]
    · have hne : ¬ k = kv.1 := fun hkk => h hkk.symm
      simp only [dictMem, dictFind, dictKeys] at ih ⊢
      simp [h, hne, ih]

theorem dictFind_dictInsert {κ α : Type} [DecidableEq κ] (d : List (κ × α)) (k j : κ) (v : α) :
    dictFind (dictInsert d k v) j = if j = k then some v else dictFind d j := by
  unfold dictInsert
  by_cases hm : dictMem d k
  · rw [if_pos hm, dictFind_updateList]
    simp [hm]
  · rw [if_neg hm, dictFind_append]
    by_cases hj : j = k
    · subst hj
      have hnone : dictFind d j = none := by
        cases hd : dictFind d j
        · rfl
        · exact absurd (by simp [dictMem, hd]) hm
      simp [hnone, firstSome, dictFind]
    · have hone : dictFind [(k, v)] j = none := by
        simp [dictFind, Ne.symm hj]
      rw [hone, firstSome_none_right, if_neg hj]

theorem dictKeys_dictInsert_nodup {κ α : Type} [DecidableEq κ] (d : List (κ × α)) (k : κ)
    (v : α) (h : (dictKeys d).Nodup) : (dictKeys (dictInsert d k v)).Nodup := by
  unfold dictInsert
  by_cases hm : dictMem d k
  · rw [if_pos hm]
    have heq : dictKeys (d.map (fun kv => if kv.1 = k then (k, v) else kv)) = dictKeys d := by
      unfold dictKeys
      rw [List.map_map]
      apply List.map_congr_left
      intro kv _
      by_cases hk : kv.1 = k <;> simp [hk]
    rw [heq]
    exact h
  · rw [if_neg hm]
    have hk : k ∉ dictKeys d := fun hmem =>
      hm ((dictMem_iff_mem_dictKeys d k).mpr hmem)
    unfold dictKeys at *
    rw [List.map_append]
    refine List.Nodup.append h (List.nodup_singleton k) ?_
    intro a ha hb
    simp only [List.map_cons, List.map_nil, List.mem_singleton] at hb
    subst hb
    exact hk ha

theorem dictFind_dictRemove {κ α : Type} [DecidableEq κ] (d : List (κ × α)) (k j : κ) :
    dictFind (dictRemove d k) j = if j = k then none else dictFind d j := by
  induction d with
  | nil => simp [dictRemove, dictFind]
  | cons kv rest ih =>
    unfold dictRemove at *
    by_cases hk : kv.1 = k <;> by_cases hj : j = k <;> by_cases hkj : kv.1 = j <;>
      simp_all [List.filter, dictFind]

/-! ## Claims about schema composition -/

/-- C2: the composed schema (`schema` with `extended=True`) walks the
ancestor chain root-to-leaf and merges exactly the explicitly declared
schema fragments (a fragment counts as explicit when the attribute bound
on that class differs from the value visible on its parent); for every
field name the most-derived explicit declaration wins, and fields not
re-declared persist unchanged. -/
theorem schema_extended_composition (mro : Mro) (f : String) :
    dictFind (BaseRegistry.schema mro true) f = specComposedFind mro f := by
  have h := dictFind_foldl_extendSchema
      (((mroTails mro).reverse).filterMap (fun m => getattr_explicit m none)) [] f
  unfold BaseRegistry.schema
  rw [if_neg (by simp), schemaFold_filterMap, h, List.filterMap_reverse,
    List.reverse_reverse]
  simp [specComposedFind, explicitFragments, firstSome_none_right, dictFind]

/-- C3 (code bug): `schema(extended=False)` is specified to return the
Type's own explicitly declared schema, but the source passes `type(self)`
— the metaclass, since `schema` is a classmethod and `self` is already
the class — to `getattr_explicit`, so the call returns the empty schema
for every class; in particular it does so for the demo class even though
that class explicitly declares a `brightness` field. -/
theorem schema_not_extended_code_bug :
    (∀ mro : Mro, BaseRegistry.schema mro false = []) ∧
    BaseRegistry.schema demoMro false = [] ∧
    getattr_explicit demoMro none
      = some [("brightness", ⟨"int", false, none⟩)] := by
  refine ⟨fun mro => rfl, rfl, ?_⟩
  decide

/-! ## Claims about the registry hook -/

/-- C4: defining two Types in sequence whose registration names (the last
segment of the defining module's qualified identifier) are equal silently
overwrites: the registry then maps that name to the second Type (the hook
has no failure path — it is a total function), and at most one Type per
name remains registered. -/
theorem registration_last_write_wins (reg : Registry) (t1 t2 : Mro)
    (hname : registrationName (clsModule t1) = registrationName (clsModule t2))
    (hnodup : (dictKeys reg).Nodup) :
    dictFind
        (BaseRegistry.init_subclass
          (some (BaseRegistry.init_subclass (some reg) t1)) t2)
        (registrationName (clsModule t1)) = some t2 ∧
    (dictKeys
        (BaseRegistry.init_subclass
          (some (BaseRegistry.init_subclass (some reg) t1)) t2)).Nodup := by
  refine ⟨?_, ?_⟩
  · show dictFind
        (dictInsert (dictInsert reg (registrationName (clsModule t1)) t1)
          (registrationName (clsModule t2)) t2)
        (registrationName (clsModule t1)) = some t2
    rw [hname, dictFind_dictInsert, if_pos rfl]
  · exact dictKeys_dictInsert_nodup _ _ _ (dictKeys_dictInsert_nodup _ _ _ hnodup)

/-- Witness for C4 at two concrete classes defined in the same module
`ledfxcontroller.effects.x`. -/
theorem registration_last_write_wins_witness :
    dictFind
        (BaseRegistry.init_subclass
          (some (BaseRegistry.init_subclass (some []) demoMro))
          [⟨12, "ledfxcontroller.effects.x", none⟩])
        (registrationName (clsModule demoMro))
      = some [⟨12, "ledfxcontroller.effects.x", none⟩] ∧
    (dictKeys
        (BaseRegistry.init_subclass
          (some (BaseRegistry.init_subclass (some []) demoMro))
          [⟨12, "ledfxcontroller.effects.x", none⟩])).Nodup :=
  registration_last_write_wins [] demoMro [⟨12, "ledfxcontroller.effects.x", none⟩]
    (by decide) (by decide)

/-- C7: `no_registration` (exclude) on a name with no current registry
entry raises a lookup error (`KeyError`); on a currently registered name
it removes exactly that entry: the name no longer resolves, every other
name resolves as before. -/
theorem no_registration_exclusion (reg : Registry) (cls : Mro) :
    (dictFind reg (registrationName (clsModule cls)) = none →
      BaseRegistry.no_registration reg cls
        = Except.error (registrationName (clsModule cls))) ∧
    ((dictFind reg (registrationName (clsModule cls))).isSome = true →
      ∃ reg2, BaseRegistry.no_registration reg cls = Except.ok reg2 ∧
        dictFind reg2 (registrationName (clsModule cls)) = none ∧
        ∀ j, j ≠ registrationName (clsModule cls) →
          dictFind reg2 j = dictFind reg j) := by
  constructor
  · intro h
    simp only [BaseRegistry.no_registration]
    rw [if_neg (by simp [dictMem, h])]
  · intro h
    simp only [BaseRegistry.no_registration]
    rw [if_pos (show dictMem reg (registrationName (clsModule cls)) = true from h)]
    refine ⟨_, rfl, ?_, ?_⟩
    · rw [dictFind_dictRemove, if_pos rfl]
    · intro j hj
      rw [dictFind_dictRemove, if_neg hj]

/-- Witness for C7: excluding the demo class fails on an empty registry
and removes it from `demoReg`. -/
theorem no_registration_exclusion_witness :
    BaseRegistry.no_registration [] demoMro
      = Except.error (registrationName (clsModule demoMro)) ∧
    ∃ reg2, BaseRegistry.no_registration demoReg demoMro = Except.ok reg2 ∧
      dictFind reg2 (registrationName (clsModule demoMro)) = none ∧
      ∀ j, j ≠ registrationName (clsModule demoMro) →
        dictFind reg2 j = dictFind demoReg j :=
  ⟨(no_registration_exclusion [] demoMro).1 rfl,
   (no_registration_exclusion demoReg demoMro).2 (by decide)⟩

/-- C10: every subclass definition — a category root or intermediate base
just as much as a leaf — immediately stores the class itself under its
module's last name segment; the registry dict is created at the first
definition (the absent-`_registry` state, modelled as `none`) and later
definitions extend that same dict, so a previously defined base class
stays registered under its own name after further definitions until
explicitly excluded. -/
theorem init_subclass_registers_every_subclass (reg : Registry) (cls base leaf : Mro) :
    dictFind (BaseRegistry.init_subclass none cls)
        (registrationName (clsModule cls)) = some cls ∧
    dictKeys (BaseRegistry.init_subclass none cls)
        = [registrationName (clsModule cls)] ∧
    dictFind (BaseRegistry.init_subclass (some reg) cls)
        (registrationName (clsModule cls)) = some cls ∧
    (registrationName (clsModule base) ≠ registrationName (clsModule leaf) →
      dictFind
          (BaseRegistry.init_subclass
            (some (BaseRegistry.init_subclass none base)) leaf)
          (registrationName (clsModule base)) = some base) := by
  refine ⟨?_, rfl, ?_, ?_⟩
  · show dictFind (dictInsert [] (registrationName (clsModule cls)) cls)
        (registrationName (clsModule cls)) = some cls
    rw [dictFind_dictInsert, if_pos rfl]
  · show dictFind (dictInsert reg (registrationName (clsModule cls)) cls)
        (registrationName (clsModule cls)) = some cls
    rw [dictFind_dictInsert, if_pos rfl]
  · intro hne
    show dictFind
        (dictInsert (dictInsert [] (registrationName (clsModule base)) base)
          (registrationName (clsModule leaf)) leaf)
        (registrationName (clsModule base)) = some base
    rw [dictFind_dictInsert, if_neg hne, dictFind_dictInsert, if_pos rfl]

/-- Witness for C10: defining the demo base (module
`ledfxcontroller.effects`) then the demo leaf (module
`ledfxcontroller.effects.x`) leaves both registered, the base under
`effects`. -/
theorem init_subclass_registers_every_subclass_witness :
    dictFind (BaseRegistry.init_subclass none [demoBaseCls])
        (registrationName (clsModule [demoBaseCls])) = some [demoBaseCls] ∧
    dictFind
        (BaseRegistry.init_subclass
          (some (BaseRegistry.init_subclass none [demoBaseCls])) demoMro)
        (registrationName (clsModule [demoBaseCls])) = some [demoBaseCls] := by
  have h := init_subclass_registers_every_subclass [] [demoBaseCls] [demoBaseCls] demoMro
  exact ⟨h.1, h.2.2.2 (by decide)⟩

/-! ## Claims about the loader -/

/-- C1 counterexample: a `create` with omitted id that fails schema
validation has already advanced `_object_id` (from 1 to 2), so the next
auto-id `create` stores its instance under id 2 — while a `create` run
from the untouched initial state stores under id 1. -/
theorem create_validation_failure_consumes_id_cex :
    (RegistryLoader.create demoReg RegistryLoader.init "x"
        (some [("brightness", Val.vstr "oops")]) none []).2
      = Except.error (LoaderError.validation ["brightness"]) ∧
    (RegistryLoader.create demoReg RegistryLoader.init "x"
        (some [("brightness", Val.vstr "oops")]) none []).1.nextObjectId = 2 ∧
    RegistryLoader.init.nextObjectId = 1 ∧
    dictKeys (RegistryLoader.create demoReg
        (RegistryLoader.create demoReg RegistryLoader.init "x"
          (some [("brightness", Val.vstr "oops")]) none []).1
        "x" (some []) none []).1.objects = [2] ∧
    dictKeys (RegistryLoader.create demoReg RegistryLoader.init "x"
        (some []) none []).1.objects = [1] :=
  ⟨rfl, rfl, rfl, rfl, rfl⟩

/-- C1 (amended): a failed `create` stores no instance; a failure at the
name lookup, and any failure on a call with an explicit id, leaves the
loader state exactly as before; but a conflict or validation failure on a
call with omitted id has already advanced the next-auto-id counter by
one. -/
theorem create_failure_state_effects (reg : Registry) (st : LoaderState)
    (name : String) (config : Option Config) (id : Option Nat) (args : List Val)
    (h : exceptIsError (RegistryLoader.create reg st name config id args).2 = true) :
    (RegistryLoader.create reg st name config id args).1.objects = st.objects ∧
    (dictFind reg name = none →
      (RegistryLoader.create reg st name config id args).1 = st) ∧
    (∀ i, id = some i → (RegistryLoader.create reg st name config id args).1 = st) ∧
    ((dictFind reg name).isSome = true → id = none →
      (RegistryLoader.create reg st name config id args).1.nextObjectId
        = st.nextObjectId + 1) := by
  cases hf : dictFind reg name with
  | none => simp [RegistryLoader.create, hf]
  | some cls =>
    cases id with
    | none =>
      by_cases hm : dictMem st.objects st.nextObjectId
      · simp [RegistryLoader.create, hf, hm]
      · cases config with
        | none => simp [RegistryLoader.create, hf, hm, exceptIsError] at h
        | some c =>
          cases hv : validateConfig (BaseRegistry.schema cls true) c with
          | error e => simp [RegistryLoader.create, hf, hm, hv]
          | ok nc => simp [RegistryLoader.create, hf, hm, hv, exceptIsError] at h
    | some i =>
      by_cases hm : dictMem st.objects i
      · simp [RegistryLoader.create, hf, hm]
      · cases config with
        | none => simp [RegistryLoader.create, hf, hm, exceptIsError] at h
        | some c =>
          cases hv : validateConfig (BaseRegistry.schema cls true) c with
          | error e => simp [RegistryLoader.create, hf, hm, hv]
          | ok nc => simp [RegistryLoader.create, hf, hm, hv, exceptIsError] at h

/-- Witness for the amended C1 at the demo validation failure. -/
theorem create_failure_state_effects_witness :
    (RegistryLoader.create demoReg RegistryLoader.init "x"
        (some [("brightness", Val.vstr "oops")]) none []).1.objects = [] ∧
    (RegistryLoader.create demoReg RegistryLoader.init "x"
        (some [("brightness", Val.vstr "oops")]) none []).1.nextObjectId = 1 + 1 := by
  have h := create_failure_state_effects demoReg RegistryLoader.init "x"
      (some [("brightness", Val.vstr "oops")]) none [] (by decide)
  exact ⟨h.1, h.2.2.2 (by decide) rfl⟩

/-- C6: a successful `create` with `config=None` skips validation and
invokes the constructor with only the extra positional arguments; with
any mapping (the empty one included) it runs the config through the
Type's composed schema and passes the normalized mapping followed by the
extra arguments verbatim. -/
theorem create_constructor_arguments (reg : Registry) (st : LoaderState)
    (name : String) (config : Option Config) (id : Option Nat) (args : List Val)
    (st' : LoaderState) (obj : Obj)
    (h : RegistryLoader.create reg st name config id args = (st', Except.ok obj)) :
    ∃ cls, dictFind reg name = some cls ∧
      ((config = none ∧ obj = ⟨clsCid cls, none, args⟩) ∨
       ∃ c nc, config = some c ∧
         validateConfig (BaseRegistry.schema cls true) c = Except.ok nc ∧
         obj = ⟨clsCid cls, some nc, args⟩) := by
  cases hf : dictFind reg name with
  | none => simp [RegistryLoader.create, hf] at h
  | some cls =>
    refine ⟨cls, rfl, ?_⟩
    cases id with
    | none =>
      by_cases hm : dictMem st.objects st.nextObjectId
      · simp [RegistryLoader.create, hf, hm] at h
      · cases config with
        | none =>
          simp [RegistryLoader.create, hf, hm] at h
          exact Or.inl ⟨rfl, h.2.symm⟩
        | some c =>
          cases hv : validateConfig (BaseRegistry.schema cls true) c with
          | error e => simp [RegistryLoader.create, hf, hm, hv] at h
          | ok nc =>
            simp [RegistryLoader.create, hf, hm, hv] at h
            exact Or.inr ⟨c, nc, rfl, hv, h.2.symm⟩
    | some i =>
      by_cases hm : dictMem st.objects i
      · simp [RegistryLoader.create, hf, hm] at h
      · cases config with
        | none =>
          simp [RegistryLoader.create, hf, hm] at h
          exact Or.inl ⟨rfl, h.2.symm⟩
        | some c =>
          cases hv : validateConfig (BaseRegistry.schema cls true) c with
          | error e => simp [RegistryLoader.create, hf, hm, hv] at h
          | ok nc =>
            simp [RegistryLoader.create, hf, hm, hv] at h
            exact Or.inr ⟨c, nc, rfl, hv, h.2.symm⟩

/-- Witness for C6: a concrete successful `create` with `config=None` and
one extra positional argument. -/
theorem create_constructor_arguments_witness :
    ∃ cls, dictFind demoReg "x" = some cls ∧
      (((none : Option Config) = none ∧
          (⟨11, none, [Val.vint 7]⟩ : Obj) = ⟨clsCid cls, none, [Val.vint 7]⟩) ∨
       ∃ c nc, (none : Option Config) = some c ∧
         validateConfig (BaseRegistry.schema cls true) c = Except.ok nc ∧
         (⟨11, none, [Val.vint 7]⟩ : Obj) = ⟨clsCid cls, some nc, [Val.vint 7]⟩) :=
  create_constructor_arguments demoReg RegistryLoader.init "x" none none
    [Val.vint 7] ⟨[(1, ⟨11, none, [Val.vint 7]⟩)], 2⟩ ⟨11, none, [Val.vint 7]⟩ rfl

/-- C8: when the mapping already holds a live instance under `i`, a
`create` with explicit `id=i` (for a registered name) fails with the
conflict error and returns the state unchanged — in particular the
previously stored instance is still found under `i`, unchanged. -/
theorem create_conflict_preserves_instance (reg : Registry) (st : LoaderState)
    (name : String) (config : Option Config) (i : Nat) (args : List Val)
    (hname : (dictFind reg name).isSome = true)
    (hlive : (dictFind st.objects i).isSome = true) :
    RegistryLoader.create reg st name config (some i) args
      = (st, Except.error (LoaderError.conflict i)) ∧
    dictFind (RegistryLoader.create reg st name config (some i) args).1.objects i
      = dictFind st.objects i := by
  obtain ⟨cls, hcls⟩ := Option.isSome_iff_exists.mp hname
  have hm : dictMem st.objects i = true := hlive
  have hcreate : RegistryLoader.create reg st name config (some i) args
      = (st, Except.error (LoaderError.conflict i)) := by
    simp [RegistryLoader.create, hcls, hm]
  exact ⟨hcreate, by rw [hcreate]⟩

/-- Witness for C8: a second `create` under the already-live id 5. -/
theorem create_conflict_preserves_instance_witness :
    RegistryLoader.create demoReg ⟨[(5, ⟨11, none, []⟩)], 1⟩ "x" none (some 5) []
      = (⟨[(5, ⟨11, none, []⟩)], 1⟩, Except.error (LoaderError.conflict 5)) ∧
    dictFind (RegistryLoader.create demoReg ⟨[(5, ⟨11, none, []⟩)], 1⟩ "x" none
        (some 5) []).1.objects 5
      = dictFind (⟨[(5, ⟨11, none, []⟩)], 1⟩ : LoaderState).objects 5 :=
  create_conflict_preserves_instance demoReg ⟨[(5, ⟨11, none, []⟩)], 1⟩ "x" none 5 []
    (by decide) (by decide)

/-- C9: `create` on a name absent from the registry fails with the
not-found error and leaves the state untouched; `destroy` on an id with
no live instance fails with the not-found error and leaves the state
untouched; `destroy` on a live id succeeds and removes exactly that
entry, leaving every other id and the auto-id counter unchanged. -/
theorem create_notfound_destroy_semantics (reg : Registry) (st : LoaderState)
    (name : String) (config : Option Config) (id : Option Nat) (args : List Val)
    (i : Nat) :
    (dictFind reg name = none →
      RegistryLoader.create reg st name config id args
        = (st, Except.error (LoaderError.notFound name))) ∧
    (dictFind st.objects i = none →
      RegistryLoader.destroy st i = (st, Except.error (LoaderError.notFoundId i))) ∧
    ((dictFind st.objects i).isSome = true →
      (RegistryLoader.destroy st i).2 = Except.ok () ∧
      dictFind (RegistryLoader.destroy st i).1.objects i = none ∧
      (∀ j, j ≠ i →
        dictFind (RegistryLoader.destroy st i).1.objects j = dictFind st.objects j) ∧
      (RegistryLoader.destroy st i).1.nextObjectId = st.nextObjectId) := by
  refine ⟨?_, ?_, ?_⟩
  · intro h
    simp [RegistryLoader.create, h]
  · intro h
    simp [RegistryLoader.destroy, dictMem, h]
  · intro h
    have hm : dictMem st.objects i = true := h
    refine ⟨?_, ?_, ?_, ?_⟩
    · simp [RegistryLoader.destroy, hm]
    · simp [RegistryLoader.destroy, hm, dictFind_dictRemove]
    · intro j hj
      simp [RegistryLoader.destroy, hm, dictFind_dictRemove, hj]
    · simp [RegistryLoader.destroy, hm]

/-- Witness for C9: unknown name on an empty registry; destroy of a
missing id; destroy of a live id. -/
theorem create_notfound_destroy_semantics_witness :
    RegistryLoader.create [] RegistryLoader.init "nope" none none []
      = (RegistryLoader.init, Except.error (LoaderError.notFound "nope")) ∧
    RegistryLoader.destroy RegistryLoader.init 1
      = (RegistryLoader.init, Except.error (LoaderError.notFoundId 1)) ∧
    (RegistryLoader.destroy ⟨[(1, ⟨11, none, []⟩)], 2⟩ 1).2 = Except.ok () ∧
    dictFind (RegistryLoader.destroy ⟨[(1, ⟨11, none, []⟩)], 2⟩ 1).1.objects 1
      = none := by
  refine ⟨?_, ?_, ?_, ?_⟩
  · exact (create_notfound_destroy_semantics [] RegistryLoader.init "nope"
      none none [] 0).1 rfl
  · exact (create_notfound_destroy_semantics [] RegistryLoader.init "nope"
      none none [] 1).2.1 rfl
  · exact ((create_notfound_destroy_semantics [] ⟨[(1, ⟨11, none, []⟩)], 2⟩ "nope"
      none none [] 1).2.2 (by decide)).1
  · exact ((create_notfound_destroy_semantics [] ⟨[(1, ⟨11, none, []⟩)], 2⟩ "nope"
      none none [] 1).2.2 (by decide)).2.1

theorem loaderStep_nextObjectId (reg : Registry) (st : LoaderState) (op : LoaderOp) :
    (loaderStep reg st op).nextObjectId
    = st.nextObjectId + (autoAssignedId reg st op).toList.length := by
  cases op with
  | create name config id args =>
    cases id with
    | none =>
      cases hf : dictFind reg name with
      | none => simp [loaderStep, RegistryLoader.create, autoAssignedId, hf]
      | some cls =>
        by_cases hm : dictMem st.objects st.nextObjectId
        · simp [loaderStep, RegistryLoader.create, autoAssignedId, hf, hm]
        · cases config with
          | none => simp [loaderStep, RegistryLoader.create, autoAssignedId, hf, hm]
          | some c =>
            cases hv : validateConfig (BaseRegistry.schema cls true) c <;>
              simp [loaderStep, RegistryLoader.create, autoAssignedId, hf, hm, hv]
    | some i =>
      cases hf : dictFind reg name with
      | none => simp [loaderStep, RegistryLoader.create, autoAssignedId, hf]
      | some cls =>
        by_cases hm : dictMem st.objects i
        · simp [loaderStep, RegistryLoader.create, autoAssignedId, hf, hm]
        · cases config with
          | none => simp [loaderStep, RegistryLoader.create, autoAssignedId, hf, hm]
          | some c =>
            cases hv : validateConfig (BaseRegistry.schema cls true) c <;>
              simp [loaderStep, RegistryLoader.create, autoAssignedId, hf, hm, hv]
  | destroy i =>
    by_cases hm : dictMem st.objects i <;>
      simp [loaderStep, RegistryLoader.destroy, autoAssignedId, hm]

theorem autoAssignedId_eq_nextObjectId (reg : Registry) (st : LoaderState)
    (op : LoaderOp) (v : Nat) (h : autoAssignedId reg st op = some v) :
    v = st.nextObjectId := by
  cases op with
  | create name config id args =>
    cases id with
    | none =>
      cases hf : dictFind reg name with
      | none => simp [autoAssignedId, hf] at h
      | some cls =>
        simp [autoAssignedId, hf] at h
        exact h.symm
    | some i => simp [autoAssignedId] at h
  | destroy i => simp [autoAssignedId] at h

theorem runTrace_ids_spec (reg : Registry) (ops : List LoaderOp) (st : LoaderState) :
    (runTrace reg st ops).2
      = List.range' st.nextObjectId (runTrace reg st ops).2.length ∧
    (runTrace reg st ops).1.nextObjectId
      = st.nextObjectId + (runTrace reg st ops).2.length := by
  induction ops generalizing st with
  | nil => simp [runTrace]
  | cons op ops ih =>
    obtain ⟨ih1, ih2⟩ := ih (loaderStep reg st op)
    have e1 : (runTrace reg st (op :: ops)).1
        = (runTrace reg (loaderStep reg st op) ops).1 := by
      simp [runTrace]
    cases ha : autoAssignedId reg st op with
    | none =>
      have hstep : (loaderStep reg st op).nextObjectId = st.nextObjectId := by
        rw [loaderStep_nextObjectId, ha]
        rfl
      have e2 : (runTrace reg st (op :: ops)).2
          = (runTrace reg (loaderStep reg st op) ops).2 := by
        simp [runTrace, ha]
      rw [e1, e2, ih2, hstep]
      rw [hstep] at ih1
      exact ⟨ih1, rfl⟩
    | some v =>
      have hv : v = st.nextObjectId := autoAssignedId_eq_nextObjectId reg st op v ha
      subst hv
      have hstep : (loaderStep reg st op).nextObjectId = st.nextObjectId + 1 := by
        rw [loaderStep_nextObjectId, ha]
        rfl
      have e2 : (runTrace reg st (op :: ops)).2
          = st.nextObjectId :: (runTrace reg (loaderStep reg st op) ops).2 := by
        simp [runTrace, ha]
      rw [e1, e2, List.length_cons]
      rw [hstep] at ih1 ih2
      constructor
      · rw [List.range'_succ]
        exact congrArg (st.nextObjectId :: ·) ih1
      · rw [ih2]
        omega

/-- C5: across any sequence of loader calls starting from a fresh Loader,
the auto-assigned identifiers (from calls to `create` that omit the id)
are exactly the consecutive run 1, 2, 3, ... — so they start at 1,
strictly increase, and are never reused, in particular not after the
instance stored under one of them has been destroyed (destroy never
touches the counter). -/
theorem auto_ids_start_one_strictly_increase (reg : Registry) (ops : List LoaderOp) :
    (runTrace reg RegistryLoader.init ops).2
      = List.range' 1 (runTrace reg RegistryLoader.init ops).2.length ∧
    List.Pairwise (· < ·) (runTrace reg RegistryLoader.init ops).2 ∧
    (runTrace reg RegistryLoader.init ops).2.Nodup := by
  have h := (runTrace_ids_spec reg ops RegistryLoader.init).1
  refine ⟨h, ?_, ?_⟩
  · rw [h]
    exact List.pairwise_lt_range' 1 _
  · rw [h]
    exact List.nodup_range' 1 _
